import Mathlib

/-!
Shallow embedding of the SP_web admin console (src/app.py): session state,
the login routine, the dynamic filter-to-SQL query builder, the pivot
transform, the row-insertion check, the user-deletion guard, and the
multiselect option enumeration.
-/

/-- Session state kept per browser session (app.py lines 69-72). -/
structure Session where
  logged_in : Bool
  username : String
  role : String
deriving DecidableEq, Repr

/-- Stored row of the users table as read by login (username, password_hash, role). -/
structure UserRow where
  username : String
  password_hash : String
  role : String
deriving DecidableEq, Repr

/-- Lookup of a user row by username, modelling
SELECT username, password_hash, role FROM users WHERE username = :username
followed by fetchone (app.py lines 88-89): the first row whose username equals
the submitted one, if any. -/
def findUser (store : List UserRow) (u : String) : Option UserRow :=
  store.find? (fun r => r.username == u)

/-- The login routine (app.py lines 82-109). The bcrypt verification
bcrypt.checkpw is external code, passed in as a function that either returns a
Boolean or raises (Except.error); the surrounding try/except of lines 93-106
maps a raised exception to the same failure as a wrong password. Returns the
resulting session together with a flag recording whether the users table was
queried; the early return of lines 83-85 fires when the submitted username or
password is the empty string. -/
def login (checkpw : String → String → Except String Bool)
    (store : List UserRow) (s : Session) (username password : String) :
    Session × Bool :=
  if username = "" ∨ password = "" then (s, false)
  else
    match findUser store username with
    | none => (s, true)
    | some row =>
      match checkpw password row.password_hash with
      | Except.ok true => ({ logged_in := true, username := row.username, role := row.role }, true)
      | Except.ok false => (s, true)
      | Except.error _ => (s, true)

/-- Value of one non-date filter in data_query: either a multiselect list of
chosen values (match kind in_list) or a free-text substring (match kind like). -/
inductive FilterVal where
  | in_list (vals : List String)
  | like (val : String)
deriving DecidableEq, Repr

/-- WHERE fragment produced for one non-date filter (app.py lines 231-239).
An in_list filter with chosen values v0..v(n-1) renders as
field IN (:field_0, ..., :field_(n-1)); a like filter renders as
field LIKE :field. An empty value (empty list or empty string) yields no
fragment, matching the truthiness tests of lines 232 and 237. -/
def filterClause (field : String) : FilterVal → Option String
  | FilterVal.in_list vals =>
    if vals = [] then none
    else
      some ("`" ++ field ++ "` IN (" ++
        String.intercalate ", "
          ((List.range vals.length).map (fun i => ":" ++ field ++ "_" ++ toString i)) ++ ")")
  | FilterVal.like v =>
    if v = "" then none
    else some ("`" ++ field ++ "` LIKE :" ++ field)

/-- Bind parameters produced for one non-date filter (app.py lines 235-236 and 239):
each in_list value is bound under key field_i, a like value is bound under key
field wrapped in percent signs. -/
def filterParams (field : String) : FilterVal → List (String × String)
  | FilterVal.in_list vals =>
    if vals = [] then []
    else ((List.range vals.length).zip vals).map (fun iv => (field ++ "_" ++ toString iv.1, iv.2))
  | FilterVal.like v =>
    if v = "" then [] else [(field, "%" ++ v ++ "%")]

/-- WHERE fragment for the date range filter (app.py line 227), present when a
date column and both bounds were chosen. The date filter is a triple of the
chosen column name and the two bound strings (already strftime-formatted as
YYYY-MM-DD). -/
def dateClause (df : Option (String × String × String)) : List String :=
  match df with
  | none => []
  | some (field, _, _) => ["`" ++ field ++ "` BETWEEN :start_date AND :end_date"]

/-- Bind parameters for the date range filter (app.py lines 228-229). -/
def dateParams (df : Option (String × String × String)) : List (String × String) :=
  match df with
  | none => []
  | some (_, s, e) => [("start_date", s), ("end_date", e)]

/-- All WHERE fragments, date range first then the field filters in order
(app.py lines 225-239). -/
def buildWhere (df : Option (String × String × String))
    (filters : List (String × FilterVal)) : List String :=
  dateClause df ++ filters.filterMap (fun fv => filterClause fv.1 fv.2)

/-- The SELECT statement text without the LIMIT suffix (app.py lines 241-244):
SELECT * FROM table, plus WHERE and the AND-joined fragments when any exist. -/
def buildQueryBody (table : String) (df : Option (String × String × String))
    (filters : List (String × FilterVal)) : String :=
  let clauses := buildWhere df filters
  let base := "SELECT * FROM `" ++ table ++ "`"
  if clauses = [] then base else base ++ " WHERE " ++ String.intercalate " AND " clauses

/-- All bind parameters of the assembled query. -/
def buildParams (df : Option (String × String × String))
    (filters : List (String × FilterVal)) : List (String × String) :=
  dateParams df ++ (filters.map (fun fv => filterParams fv.1 fv.2)).flatten

/-- The assembled query (app.py lines 241-245): statement text ending in
LIMIT 1000, together with its bind parameters. -/
def buildQuery (table : String) (df : Option (String × String × String))
    (filters : List (String × FilterVal)) : String × List (String × String) :=
  (buildQueryBody table df filters ++ " LIMIT 1000", buildParams df filters)

/-- Shape of a filter value: everything about it that is not user-supplied
data, namely its match kind, the number of chosen values of an in_list filter,
and whether a like substring is nonempty. -/
inductive FilterShape where
  | in_list (n : Nat)
  | like (ne : Bool)
deriving DecidableEq, Repr

/-- Shape extraction for a filter value. -/
def shapeOf : FilterVal → FilterShape
  | FilterVal.in_list vals => FilterShape.in_list vals.length
  | FilterVal.like v => FilterShape.like (v != "")

/-- Shape of the date filter: only the chosen column name, not the bounds. -/
def dateShape (df : Option (String × String × String)) : Option String :=
  df.map (fun t => t.1)

/-- Execution of the row cap: the database returns at most the first 1000 rows
of the result set, modelling the LIMIT 1000 suffix of the query. -/
def limitExec {α : Type} (rows : List α) : List α :=
  rows.take 1000

/-- Listed user row in user management (app.py line 376): id, username, role
(created_at omitted, it plays no part in the delete decision). -/
structure ListedUser where
  id : Nat
  username : String
  role : String
deriving DecidableEq, Repr

/-- Delete decision for one listed row (app.py lines 386-404): when the current
session username differs from the row username, the delete button issues
DELETE FROM users WHERE id = :id with that row's id; when they are equal the
button is not offered and no DELETE is issued. -/
def deleteCmdFor (sessionUsername : String) (row : ListedUser) : Option Nat :=
  if sessionUsername ≠ row.username then some row.id else none

/-- Deduplication keeping the first occurrence of each element, with an
accumulator of already emitted elements. -/
def dedupFirstAux {α : Type} [DecidableEq α] (seen : List α) : List α → List α
  | [] => []
  | x :: xs =>
    if x ∈ seen then dedupFirstAux seen xs else x :: dedupFirstAux (x :: seen) xs

/-- Deduplication keeping the first occurrence of each element. -/
def dedupFirst {α : Type} [DecidableEq α] (l : List α) : List α :=
  dedupFirstAux [] l

/-- Lexicographic comparison of character lists by code point. -/
def charListLeB : List Char → List Char → Bool
  | [], _ => true
  | _ :: _, [] => false
  | a :: as, b :: bs =>
    if a.toNat < b.toNat then true
    else if b.toNat < a.toNat then false
    else charListLeB as bs

/-- Lexicographic order on strings by code point. -/
def strLeB (a b : String) : Bool :=
  charListLeB a.data b.data

/-- Insertion of a string into a sorted list of strings. -/
def insertSorted (x : String) : List String → List String
  | [] => [x]
  | y :: ys => if strLeB x y then x :: y :: ys else y :: insertSorted x ys

/-- Insertion sort on strings, modelling the sorted index and column order of
the pandas pivot table. -/
def sortStrings : List String → List String
  | [] => []
  | x :: xs => insertSorted x (sortStrings xs)

/-- Long-format row fed to the pivot transform: the chosen date/index column,
the tag column and the value column (app.py lines 276-282). -/
structure LongRow where
  idx : String
  tag : String
  value : Int
deriving DecidableEq, Repr

/-- Values of the (index, tag) group, in original row order. -/
def cellValues (rows : List LongRow) (i t : String) : List Int :=
  (rows.filter (fun r => r.idx == i && r.tag == t)).map (fun r => r.value)

/-- Aggregation function first of the pandas pivot_table call (app.py line 281):
the first value of the group in original row order, none when the group is
empty. -/
def aggFirst (vs : List Int) : Option Int :=
  vs.head?

/-- The pivot transform, modelling
pd.pivot_table(df, index=date_field, columns=tag, values=value, aggfunc=first)
of app.py lines 276-282: one output row per distinct index value, one output
column per distinct tag value (both in sorted order, as pandas sorts groups),
each cell the first value seen for that (index, tag) pair, none when the pair
never occurs. -/
def pivotTableFirst (rows : List LongRow) :
    List (String × List (String × Option Int)) :=
  let idxs := sortStrings (dedupFirst (rows.map (fun r => r.idx)))
  let tags := sortStrings (dedupFirst (rows.map (fun r => r.tag)))
  idxs.map (fun i => (i, tags.map (fun t => (t, aggFirst (cellValues rows i t)))))

/-- Removal of leading whitespace characters from a character list. -/
def dropLeading : List Char → List Char
  | [] => []
  | c :: cs => if c.isWhitespace then dropLeading cs else c :: cs

/-- The Python str.strip operation used at app.py line 326: removal of leading
and trailing whitespace. -/
def stripStr (s : String) : String :=
  String.mk ((dropLeading (dropLeading s.data).reverse).reverse)

/-- The row-insertion submission check (app.py lines 326-332): given the
entered field texts, reject (none) when every field is blank after stripping
whitespace, otherwise insert exactly the entered values verbatim. -/
def dataWriteSubmit (vals : List (String × String)) : Option (List (String × String)) :=
  if vals.all (fun kv => stripStr kv.2 == "") then none else some vals

/-- Date-time instant at the granularity the date filter works with: a day
number and a time of day (seconds after midnight, zero for a pure date). -/
structure DT where
  day : Int
  tod : Nat
deriving DecidableEq, Repr

/-- Chronological order on date-time instants. -/
def dtLeB (a b : DT) : Bool :=
  decide (a.day < b.day ∨ (a.day = b.day ∧ a.tod ≤ b.tod))

/-- The date range predicate the built query evaluates on a column value,
modelling field BETWEEN :start_date AND :end_date (app.py line 227) where both
parameters are date strings (strftime %Y-%m-%d, lines 228-229): the database
coerces each bound string to the midnight instant of its day and BETWEEN is
inclusive at both ends. -/
def dateRangeFilter (s e : Int) (v : DT) : Bool :=
  dtLeB ⟨s, 0⟩ v && dtLeB v ⟨e, 0⟩

/-- Stated from the claim (not the source): the day-granularity inclusive
range, satisfied by any value whose calendar day lies between the two bound
days inclusive. -/
def claimDateFilter (s e : Int) (v : DT) : Bool :=
  decide (s ≤ v.day ∧ v.day ≤ e)

/-- Column-name heuristic choosing date columns (app.py line 185): the name
contains date or time, case-insensitively. Substring containment is spelled
out on character lists. -/
def leadsList (pat l : List Char) : Bool :=
  match pat, l with
  | [], _ => true
  | _ :: _, [] => false
  | p :: ps, c :: cs => p == c && leadsList ps cs

/-- Containment of a character pattern anywhere in a character list. -/
def hasSub (pat : List Char) : List Char → Bool
  | [] => leadsList pat []
  | c :: rest => leadsList pat (c :: rest) || hasSub pat rest

/-- Containment of a substring in a string. -/
def strContains (s pat : String) : Bool :=
  hasSub pat.toList s.toList

/-- The date-column heuristic of app.py line 185. -/
def isDateCol (c : String) : Bool :=
  strContains c.toLower "date" || strContains c.toLower "time"

/-- Options offered by the multiselect for a non-date column (app.py lines
208-210): the distinct values of the column capped at 1000 rows
(SELECT DISTINCT field FROM table LIMIT 1000, where a NULL counts as one
distinct value), then dropna removes the NULL entry and unique deduplicates
again. Column values are Option String, none standing for SQL NULL. -/
def optionsOf (colVals : List (Option String)) : List String :=
  dedupFirst (((dedupFirst colVals).take 1000).filterMap id)

/-- SQL evaluation of field IN (list) on a row value: a NULL value compares
unknown to every list element, so the row is never selected. -/
def matchInList (v : Option String) (sel : List String) : Bool :=
  match v with
  | none => false
  | some x => sel.contains x

/-! Helper lemmas. -/

theorem head?_filter_eq_find? {α : Type} (p : α → Bool) (l : List α) :
    (l.filter p).head? = l.find? p := by
  induction l with
  | nil => rfl
  | cons a as ih => by_cases h : p a <;> simp [List.filter_cons, List.find?_cons, h, ih]

theorem aggFirst_cell_eq_find (rows : List LongRow) (i t : String) :
    aggFirst (cellValues rows i t) =
      (rows.find? (fun r => r.idx == i && r.tag == t)).map (fun r => r.value) := by
  unfold aggFirst cellValues
  rw [List.head?_map, head?_filter_eq_find?]

theorem filterClause_eq_of_shapeOf_eq (f : String) (a b : FilterVal)
    (h : shapeOf a = shapeOf b) : filterClause f a = filterClause f b := by
  cases a with
  | in_list v1 =>
    cases b with
    | in_list v2 =>
      simp only [shapeOf, FilterShape.in_list.injEq] at h
      by_cases hv : v1 = []
      · have hv2 : v2 = [] := by
          rw [← List.length_eq_zero, ← h, List.length_eq_zero]; exact hv
        simp [filterClause, hv, hv2]
      · have hv2 : v2 ≠ [] := by
          intro hh
          exact hv (by rw [← List.length_eq_zero, h, List.length_eq_zero]; exact hh)
        simp [filterClause, hv, hv2, h]
    | like v2 => simp [shapeOf] at h
  | like v1 =>
    cases b with
    | in_list v2 => simp [shapeOf] at h
    | like v2 =>
      simp only [shapeOf, FilterShape.like.injEq, bne_iff_ne, ne_eq] at h
      by_cases hv : v1 = ""
      · have hv2 : v2 = "" := by
          by_contra hh
          rw [show (v1 != "") = false by simp [hv]] at h
          simp [hh] at h
        simp [filterClause, hv, hv2]
      · have hv2 : v2 ≠ "" := by
          intro hh
          rw [show (v2 != "") = false by simp [hh]] at h
          simp [hv] at h
        simp [filterClause, hv, hv2]

theorem buildWhere_eq_of_shape_eq (df df2 : Option (String × String × String))
    (fs fs2 : List (String × FilterVal))
    (hd : dateShape df = dateShape df2)
    (hf : fs.map (fun q => (q.1, shapeOf q.2)) = fs2.map (fun q => (q.1, shapeOf q.2))) :
    buildWhere df fs = buildWhere df2 fs2 := by
  unfold buildWhere
  have hdc : dateClause df = dateClause df2 := by
    cases df with
    | none =>
      cases df2 with
      | none => rfl
      | some t => simp [dateShape] at hd
    | some t =>
      cases df2 with
      | none => simp [dateShape] at hd
      | some t2 =>
        simp only [dateShape, Option.map_some', Option.some.injEq] at hd
        simp [dateClause, hd]
  rw [hdc]
  congr 1
  induction fs generalizing fs2 with
  | nil =>
    cases fs2 with
    | nil => rfl
    | cons b bs => simp at hf
  | cons a as ih =>
    cases fs2 with
    | nil => simp at hf
    | cons b bs =>
      simp only [List.map_cons, List.cons.injEq, Prod.mk.injEq] at hf
      obtain ⟨⟨h1, h2⟩, h3⟩ := hf
      have hc : filterClause a.1 a.2 = filterClause b.1 b.2 := by
        rw [h1]; exact filterClause_eq_of_shapeOf_eq b.1 a.2 b.2 h2
      rw [List.filterMap_cons, List.filterMap_cons, hc, ih bs h3]

theorem snd_filterParams_in_list (f : String) (vals : List String) (h : vals ≠ []) :
    (filterParams f (FilterVal.in_list vals)).map Prod.snd = vals := by
  simp only [filterParams, h, if_false, List.map_map]
  exact List.map_snd_zip _ _ (le_of_eq (List.length_range _).symm)

theorem mem_of_mem_dedupFirstAux {α : Type} [DecidableEq α] (l : List α) (seen : List α)
    (a : α) (h : a ∈ dedupFirstAux seen l) : a ∈ l := by
  induction l generalizing seen with
  | nil => simp [dedupFirstAux] at h
  | cons x xs ih =>
    simp only [dedupFirstAux] at h
    by_cases hx : x ∈ seen
    · simp only [hx, if_true] at h
      exact List.mem_cons_of_mem _ (ih _ h)
    · simp only [hx, if_false, List.mem_cons] at h
      rcases h with h | h
      · exact h ▸ List.mem_cons_self _ _
      · exact List.mem_cons_of_mem _ (ih _ h)

theorem not_mem_seen_of_mem_dedupFirstAux {α : Type} [DecidableEq α] (l : List α)
    (seen : List α) (a : α) (h : a ∈ dedupFirstAux seen l) : a ∉ seen := by
  induction l generalizing seen with
  | nil => simp [dedupFirstAux] at h
  | cons x xs ih =>
    simp only [dedupFirstAux] at h
    by_cases hx : x ∈ seen
    · simp only [hx, if_true] at h
      exact ih _ h
    · simp only [hx, if_false, List.mem_cons] at h
      rcases h with h | h
      · exact h ▸ hx
      · intro hs
        exact (ih _ h) (List.mem_cons_of_mem _ hs)

theorem nodup_dedupFirstAux {α : Type} [DecidableEq α] (l : List α) (seen : List α) :
    (dedupFirstAux seen l).Nodup := by
  induction l generalizing seen with
  | nil => simp [dedupFirstAux]
  | cons x xs ih =>
    simp only [dedupFirstAux]
    by_cases hx : x ∈ seen
    · simp only [hx, if_true]; exact ih _
    · simp only [hx, if_false]
      refine List.nodup_cons.mpr ⟨?_, ih _⟩
      intro hmem
      exact (not_mem_seen_of_mem_dedupFirstAux _ _ _ hmem) (List.mem_cons_self _ _)

theorem length_dedupFirstAux_le {α : Type} [DecidableEq α] (l : List α) (seen : List α) :
    (dedupFirstAux seen l).length ≤ l.length := by
  induction l generalizing seen with
  | nil => simp [dedupFirstAux]
  | cons x xs ih =>
    simp only [dedupFirstAux]
    by_cases hx : x ∈ seen
    · simp only [hx, if_true]
      exact Nat.le_succ_of_le (ih _)
    · simp only [hx, if_false, List.length_cons]
      exact Nat.succ_le_succ (ih _)

/-! Claim theorems. -/

/-- C1: For every stored user row and every submitted nonempty (username,
password) pair, when the password verifies against the stored hash of the row
found for that username, login succeeds and the session becomes
{logged_in := true, username := stored username, role := stored role}; when
the username is absent from the store, or the password fails to verify, login
fails and the session is left exactly as it was (so a logged-out session with
empty username and role stays that way). -/
theorem login_auth_correct
    (checkpw : String → String → Except String Bool)
    (store : List UserRow) (s : Session) (u p : String) :
    (∀ row, u ≠ "" → p ≠ "" → findUser store u = some row →
      checkpw p row.password_hash = Except.ok true →
      login checkpw store s u p =
        ({ logged_in := true, username := row.username, role := row.role }, true)) ∧
    (findUser store u = none → (login checkpw store s u p).1 = s) ∧
    (∀ row, findUser store u = some row →
      checkpw p row.password_hash = Except.ok false →
      (login checkpw store s u p).1 = s) := by
  refine ⟨?_, ?_, ?_⟩
  · intro row hu hp hrow hcp
    simp [login, hu, hp, hrow, hcp]
  · intro hrow
    by_cases h : u = "" ∨ p = ""
    · simp [login, h]
    · simp [login, h, hrow]
  · intro row hrow hcp
    by_cases h : u = "" ∨ p = ""
    · simp [login, h]
    · simp [login, h, hrow, hcp]

/-- Witness for C1 at a concrete store and verifier. -/
theorem login_auth_correct_witness :
    login (fun _ _ => Except.ok true) [⟨"alice", "h1", "admin"⟩]
        ⟨false, "", ""⟩ "alice" "pw" =
      ({ logged_in := true, username := "alice", role := "admin" }, true) :=
  (login_auth_correct (fun _ _ => Except.ok true) [⟨"alice", "h1", "admin"⟩]
      ⟨false, "", ""⟩ "alice" "pw").1
    ⟨"alice", "h1", "admin"⟩ (by decide) (by decide) (by decide) rfl

/-- C8: When verifying the submitted password against the stored hash raises
an exception, the exception does not propagate: login fails with the session
unchanged, exactly as it does for a wrong password. -/
theorem login_checkpw_exception_caught
    (checkpw : String → String → Except String Bool)
    (store : List UserRow) (s : Session) (u p : String) (row : UserRow) (msg : String)
    (hu : u ≠ "") (hp : p ≠ "") (hrow : findUser store u = some row)
    (herr : checkpw p row.password_hash = Except.error msg) :
    login checkpw store s u p = (s, true) ∧
    (∀ checkpw2, checkpw2 p row.password_hash = Except.ok false →
      login checkpw2 store s u p = login checkpw store s u p) := by
  constructor
  · simp [login, hu, hp, hrow, herr]
  · intro checkpw2 hcp2
    simp [login, hu, hp, hrow, herr, hcp2]

/-- Witness for C8 at a concrete store and a raising verifier. -/
theorem login_checkpw_exception_caught_witness :
    login (fun _ _ => Except.error "invalid salt") [⟨"alice", "nothash", "admin"⟩]
        ⟨false, "", ""⟩ "alice" "pw" = (⟨false, "", ""⟩, true) ∧
    login (fun _ _ => Except.ok false) [⟨"alice", "nothash", "admin"⟩]
        ⟨false, "", ""⟩ "alice" "pw" =
      login (fun _ _ => Except.error "invalid salt") [⟨"alice", "nothash", "admin"⟩]
        ⟨false, "", ""⟩ "alice" "pw" :=
  ⟨(login_checkpw_exception_caught (fun _ _ => Except.error "invalid salt")
      [⟨"alice", "nothash", "admin"⟩] ⟨false, "", ""⟩ "alice" "pw"
      ⟨"alice", "nothash", "admin"⟩ "invalid salt"
      (by decide) (by decide) (by decide) rfl).1,
   (login_checkpw_exception_caught (fun _ _ => Except.error "invalid salt")
      [⟨"alice", "nothash", "admin"⟩] ⟨false, "", ""⟩ "alice" "pw"
      ⟨"alice", "nothash", "admin"⟩ "invalid salt"
      (by decide) (by decide) (by decide) rfl).2
     (fun _ _ => Except.ok false) rfl⟩

/-- C9: When the submitted username or the submitted password is empty, login
is rejected before any database lookup: the users table is not queried and the
session is unchanged. -/
theorem login_empty_rejected
    (checkpw : String → String → Except String Bool)
    (store : List UserRow) (s : Session) (u p : String)
    (h : u = "" ∨ p = "") :
    login checkpw store s u p = (s, false) := by
  simp [login, h]

/-- Witness for C9 with an empty username. -/
theorem login_empty_rejected_witness :
    login (fun _ _ => Except.ok true) [⟨"alice", "h1", "admin"⟩]
        ⟨false, "", ""⟩ "" "pw" = (⟨false, "", ""⟩, false) :=
  login_empty_rejected (fun _ _ => Except.ok true) [⟨"alice", "h1", "admin"⟩]
    ⟨false, "", ""⟩ "" "pw" (Or.inl rfl)

/-- C4: For every listed user row, when the row's username equals the current
session username the delete is refused (no DELETE issued); when it differs,
exactly one DELETE by that row's id is issued. The guard compares usernames
only: its outcome does not depend on the row's id (or role). -/
theorem delete_guard_by_username (su : String) (r : ListedUser) :
    (su = r.username → deleteCmdFor su r = none) ∧
    (su ≠ r.username → deleteCmdFor su r = some r.id) ∧
    (∀ i j role1 role2, (deleteCmdFor su ⟨i, r.username, role1⟩).isSome =
      (deleteCmdFor su ⟨j, r.username, role2⟩).isSome) := by
  refine ⟨?_, ?_, ?_⟩
  · intro h; simp [deleteCmdFor, h]
  · intro h; simp [deleteCmdFor, h]
  · intro i j role1 role2
    by_cases h : su = r.username <;> simp [deleteCmdFor, h]

/-- Witness for C4: deleting another user goes through, deleting oneself is
refused. -/
theorem delete_guard_by_username_witness :
    deleteCmdFor "root" ⟨5, "bob", "user"⟩ = some 5 ∧
    deleteCmdFor "root" ⟨7, "root", "admin"⟩ = none :=
  ⟨(delete_guard_by_username "root" ⟨5, "bob", "user"⟩).2.1 (by decide),
   (delete_guard_by_username "root" ⟨7, "root", "admin"⟩).1 rfl⟩

/-- C6: A row-insertion submission whose fields are all blank or
whitespace-only is rejected with no database write; a submission with at least
one non-blank field results in exactly one insert of the entered values
verbatim. -/
theorem data_write_blank_guard (vals : List (String × String)) :
    ((∀ kv ∈ vals, stripStr kv.2 = "") → dataWriteSubmit vals = none) ∧
    ((∃ kv ∈ vals, stripStr kv.2 ≠ "") → dataWriteSubmit vals = some vals) := by
  constructor
  · intro h
    have hall : vals.all (fun kv => stripStr kv.2 == "") = true := by
      rw [List.all_eq_true]
      intro kv hkv
      simp [h kv hkv]
    simp [dataWriteSubmit, hall]
  · intro h
    obtain ⟨kv, hkv, hne⟩ := h
    have hall : vals.all (fun kv => stripStr kv.2 == "") = false := by
      rw [List.all_eq_false]
      exact ⟨kv, hkv, by simp [hne]⟩
    simp [dataWriteSubmit, hall]

/-- Witness for C6: an all-blank submission is rejected, a submission with one
non-blank field is inserted verbatim. -/
theorem data_write_blank_guard_witness :
    dataWriteSubmit [("a", "  "), ("b", "")] = none ∧
    dataWriteSubmit [("a", "  "), ("b", "x")] = some [("a", "  "), ("b", "x")] :=
  ⟨(data_write_blank_guard [("a", "  "), ("b", "")]).1 (by decide),
   (data_write_blank_guard [("a", "  "), ("b", "x")]).2 ⟨("b", "x"), by decide, by decide⟩⟩

/-- C3: For every table selection and every combination of filters (including
none), the built SELECT statement ends with LIMIT 1000, and executing a
LIMIT 1000 cap returns at most 1000 rows. -/
theorem query_row_cap (table : String) (df : Option (String × String × String))
    (fs : List (String × FilterVal)) :
    (∃ body, (buildQuery table df fs).1 = body ++ " LIMIT 1000") ∧
    (∀ rows : List (List String), (limitExec rows).length ≤ 1000) := by
  refine ⟨⟨buildQueryBody table df fs, rfl⟩, ?_⟩
  intro rows
  exact List.length_take_le 1000 rows

/-- C7 counterexample: with start day 0 and end day 1, a column value one
second after midnight of the end day satisfies the day-granularity filter the
claim describes, but not the filter the code builds (BETWEEN two bound
parameters that the database reads as midnight instants). -/
theorem date_filter_endday_counterexample :
    claimDateFilter 0 1 ⟨1, 1⟩ = true ∧ dateRangeFilter 0 1 ⟨1, 1⟩ = false := by
  decide

/-- C7 amended: the range filter built by the code is inclusive at both bounds
read as midnight instants of the start and end days: a value satisfies it
exactly when its day lies in [start, end] and, on the end day itself, only the
midnight instant qualifies. In particular, for day-granularity values
(time of day zero) the filter is inclusive at both ends as the claim states,
but a value later within the end day is excluded. -/
theorem date_filter_midnight_bounds (s e : Int) (v : DT) :
    (dateRangeFilter s e v = true ↔
      (s ≤ v.day ∧ v.day ≤ e ∧ (v.day = e → v.tod = 0))) ∧
    (v.tod = 0 → dateRangeFilter s e v = claimDateFilter s e v) := by
  constructor
  · simp only [dateRangeFilter, dtLeB, Bool.and_eq_true, decide_eq_true_eq]
    omega
  · intro h
    simp only [dateRangeFilter, claimDateFilter, dtLeB, h, ← Bool.decide_and]
    rw [decide_eq_decide]
    omega

/-- Witness for C7 amended: the end-day midnight instant is included. -/
theorem date_filter_midnight_bounds_witness :
    dateRangeFilter 0 1 ⟨1, 0⟩ = true ∧
    dateRangeFilter 0 1 ⟨1, 0⟩ = claimDateFilter 0 1 ⟨1, 0⟩ :=
  ⟨(date_filter_midnight_bounds 0 1 ⟨1, 0⟩).1.mpr ⟨by decide, by decide, fun _ => rfl⟩,
   (date_filter_midnight_bounds 0 1 ⟨1, 0⟩).2 rfl⟩

/-- C2: The statement text of the built query contains no user-supplied value:
it is identical for any two filter selections of the same shape (same chosen
date column, same filtered fields, match kinds and in_list value counts),
however the user-supplied values differ — so only table and column names and
fixed SQL text appear in it. Moreover every user-supplied value is carried in
the bind parameter list: each in_list value, each nonempty like substring
(percent-wrapped), and both date bounds. -/
theorem query_values_only_bound (table : String)
    (df df2 : Option (String × String × String))
    (fs fs2 : List (String × FilterVal))
    (hd : dateShape df = dateShape df2)
    (hf : fs.map (fun q => (q.1, shapeOf q.2)) = fs2.map (fun q => (q.1, shapeOf q.2))) :
    (buildQuery table df fs).1 = (buildQuery table df2 fs2).1 ∧
    (∀ f vals, (f, FilterVal.in_list vals) ∈ fs →
      ∀ v ∈ vals, v ∈ (buildQuery table df fs).2.map Prod.snd) ∧
    (∀ f v, (f, FilterVal.like v) ∈ fs → v ≠ "" →
      ("%" ++ v ++ "%") ∈ (buildQuery table df fs).2.map Prod.snd) ∧
    (∀ fld sd ed, df = some (fld, sd, ed) →
      sd ∈ (buildQuery table df fs).2.map Prod.snd ∧
      ed ∈ (buildQuery table df fs).2.map Prod.snd) := by
  refine ⟨?_, ?_, ?_, ?_⟩
  · simp only [buildQuery, buildQueryBody]
    rw [buildWhere_eq_of_shape_eq df df2 fs fs2 hd hf]
  · intro f vals hmem v hv
    have hne : vals ≠ [] := by rintro rfl; simp at hv
    have h1 : filterParams f (FilterVal.in_list vals) ∈
        fs.map (fun fv => filterParams fv.1 fv.2) :=
      List.mem_map_of_mem (fun fv => filterParams fv.1 fv.2) hmem
    have h2 : v ∈ (filterParams f (FilterVal.in_list vals)).map Prod.snd := by
      rw [snd_filterParams_in_list f vals hne]; exact hv
    simp only [buildQuery, buildParams, List.map_append, List.mem_append]
    right
    rw [List.map_flatten]
    exact List.mem_flatten.mpr
      ⟨(filterParams f (FilterVal.in_list vals)).map Prod.snd,
       List.mem_map_of_mem (List.map Prod.snd) h1, h2⟩
  · intro f v hmem hv
    have h1 : filterParams f (FilterVal.like v) ∈
        fs.map (fun fv => filterParams fv.1 fv.2) :=
      List.mem_map_of_mem (fun fv => filterParams fv.1 fv.2) hmem
    have h2 : ("%" ++ v ++ "%") ∈ (filterParams f (FilterVal.like v)).map Prod.snd := by
      simp [filterParams, hv]
    simp only [buildQuery, buildParams, List.map_append, List.mem_append]
    right
    rw [List.map_flatten]
    exact List.mem_flatten.mpr
      ⟨(filterParams f (FilterVal.like v)).map Prod.snd,
       List.mem_map_of_mem (List.map Prod.snd) h1, h2⟩
  · intro fld sd ed hdf
    subst hdf
    constructor <;> simp [buildQuery, buildParams, dateParams]

/-- Witness for C2: two filter selections of equal shape but different
user-supplied values produce the same statement text, and a chosen value sits
in the bind parameters. -/
theorem query_values_only_bound_witness :
    (buildQuery "t" (some ("d", "2024-01-01", "2024-01-08"))
        [("a", FilterVal.in_list ["x", "y"]), ("b", FilterVal.like "z")]).1 =
      (buildQuery "t" (some ("d", "1999-01-01", "1999-12-31"))
        [("a", FilterVal.in_list ["p", "q"]), ("b", FilterVal.like "w")]).1 ∧
    "x" ∈ (buildQuery "t" (some ("d", "2024-01-01", "2024-01-08"))
        [("a", FilterVal.in_list ["x", "y"]), ("b", FilterVal.like "z")]).2.map Prod.snd :=
  ⟨(query_values_only_bound "t"
      (some ("d", "2024-01-01", "2024-01-08")) (some ("d", "1999-01-01", "1999-12-31"))
      [("a", FilterVal.in_list ["x", "y"]), ("b", FilterVal.like "z")]
      [("a", FilterVal.in_list ["p", "q"]), ("b", FilterVal.like "w")]
      (by decide) (by decide)).1,
   (query_values_only_bound "t"
      (some ("d", "2024-01-01", "2024-01-08")) (some ("d", "1999-01-01", "1999-12-31"))
      [("a", FilterVal.in_list ["x", "y"]), ("b", FilterVal.like "z")]
      [("a", FilterVal.in_list ["p", "q"]), ("b", FilterVal.like "w")]
      (by decide) (by decide)).2.1 "a" ["x", "y"] (by decide) "x" (by decide)⟩

/-- C5: The pivot transform produces one row per distinct index value and one
column per distinct tag value; each cell holds the first value seen in
original row order for its (index, tag) pair, and a pair that never occurs is
null. On the rows (D1,A,1), (D1,B,2), (D2,A,3) it yields exactly the two rows
D1 with A=1, B=2 and D2 with A=3, B=null. -/
theorem pivot_first_wins (rows : List LongRow) :
    ((pivotTableFirst rows).map Prod.fst =
      sortStrings (dedupFirst (rows.map (fun r => r.idx)))) ∧
    (∀ i cols, (i, cols) ∈ pivotTableFirst rows →
      cols.map Prod.fst = sortStrings (dedupFirst (rows.map (fun r => r.tag))) ∧
      ∀ t v, (t, v) ∈ cols →
        v = (rows.find? (fun r => r.idx == i && r.tag == t)).map (fun r => r.value)) ∧
    (pivotTableFirst [⟨"D1", "A", 1⟩, ⟨"D1", "B", 2⟩, ⟨"D2", "A", 3⟩] =
      [("D1", [("A", some 1), ("B", some 2)]), ("D2", [("A", some 3), ("B", none)])]) := by
  refine ⟨?_, ?_, ?_⟩
  · simp [pivotTableFirst, List.map_map, Function.comp_def]
  · intro i cols hmem
    simp only [pivotTableFirst, List.mem_map] at hmem
    obtain ⟨i0, _, heq⟩ := hmem
    obtain ⟨rfl, rfl⟩ := Prod.mk.injEq .. ▸ heq
    constructor
    · simp [List.map_map, Function.comp_def]
    · intro t v hcell
      simp only [List.mem_map] at hcell
      obtain ⟨t0, _, heq2⟩ := hcell
      obtain ⟨rfl, rfl⟩ := Prod.mk.injEq .. ▸ heq2
      exact aggFirst_cell_eq_find rows i0 t0
  · decide

/-- Witness for C5: in the example, the D2 row carries A=3 and that cell is
the first value for (D2, A) in original row order. -/
theorem pivot_first_wins_witness :
    some (3 : Int) =
      (([⟨"D1", "A", 1⟩, ⟨"D1", "B", 2⟩, ⟨"D2", "A", 3⟩] :
          List LongRow).find? (fun r => r.idx == "D2" && r.tag == "A")).map
        (fun r => r.value) :=
  ((pivot_first_wins [⟨"D1", "A", 1⟩, ⟨"D1", "B", 2⟩, ⟨"D2", "A", 3⟩]).2.1
      "D2" [("A", some 3), ("B", none)] (by decide)).2 "A" (some 3) (by decide)

/-- C10: For a non-date column the multiselect options are at most 1000
deduplicated non-null values, each occurring in the column, and a row whose
value in that column is NULL is never selected by the resulting in_list
filter. -/
theorem options_nonnull_capped (colVals : List (Option String)) :
    (optionsOf colVals).length ≤ 1000 ∧
    (optionsOf colVals).Nodup ∧
    (∀ v ∈ optionsOf colVals, some v ∈ colVals) ∧
    (∀ sel : List String, matchInList none sel = false) := by
  refine ⟨?_, ?_, ?_, ?_⟩
  · calc (optionsOf colVals).length
        ≤ (((dedupFirst colVals).take 1000).filterMap id).length :=
          length_dedupFirstAux_le _ _
      _ ≤ ((dedupFirst colVals).take 1000).length := List.length_filterMap_le id _
      _ ≤ 1000 := List.length_take_le 1000 _
  · exact nodup_dedupFirstAux _ _
  · intro v hv
    have h1 : v ∈ ((dedupFirst colVals).take 1000).filterMap id :=
      mem_of_mem_dedupFirstAux _ _ _ hv
    obtain ⟨o, ho, hoeq⟩ := List.mem_filterMap.mp h1
    have h2 : o ∈ dedupFirst colVals := List.mem_of_mem_take ho
    have h3 : o ∈ colVals := mem_of_mem_dedupFirstAux _ _ _ h2
    rw [show o = some v from hoeq] at h3
    exact h3
  · intro sel
    rfl

/-- Witness for C10: the value offered for a column holding one value and a
NULL indeed occurs in the column. -/
theorem options_nonnull_capped_witness :
    some "x" ∈ ([some "x", none] : List (Option String)) :=
  (options_nonnull_capped [some "x", none]).2.2.1 "x" (by decide)
